import Mathlib

/-!
Verification of the CodeCatalyst dev-environment reconnection watcher
(`codecatalyst/reconnect.ts`): a shallow embedding of the polling state
machine and its persistence contract, together with theorems checking the
written specification against it.

The persisted store (`memento` value under `CODECATALYST_RECONNECT_KEY`) is an
association list from environment id to record, mirroring a JS object whose
string keys iterate in insertion order.  The external collaborators (status
client, clock, cancellation token) are an explicit environment; one watch
cycle produces a trace of observable events (store writes, status queries,
progress reports, the connect command, the window-close trigger, warnings).
The source's `while` loop is unbounded, so the embedding runs it for an
explicit number of ticks (`fuel`); every theorem speaks about such a finite
prefix of the run.
-/

namespace Reconnect

/-- The source constant `RECONNECT_TIMER = 5000` (ms between poll ticks). -/
def RECONNECT_TIMER : Nat := 5000

/-- The source constant `MAX_RECONNECT_TIME = 10 * 60 * 1000` (reconnect window, ms). -/
def MAX_RECONNECT_TIME : Nat := 10 * 60 * 1000

/-- One entry of the persisted mapping (`DevEnvMemento`), with the fields
written by `saveReconnectionInformation`.  The source field `alias` is called
`aliasName` here because `alias` is a command keyword in this Lean
environment; `none` models an `undefined` alias. -/
structure DevEnvMemento where
  previousVscodeWorkspace : String
  spaceName : String
  projectName : String
  attemptingReconnect : Bool
  previousConnectionTimestamp : Nat
  aliasName : Option String
deriving DecidableEq

/-- The persisted value under `CODECATALYST_RECONNECT_KEY`:
`Record<string, DevEnvMemento>` as an association list. -/
abbrev Store := List (String × DevEnvMemento)

/-- Key lookup into the mapping (`store[id]`, and the `id in store` test). -/
def lookup (s : Store) (id : String) : Option DevEnvMemento :=
  (s.find? (fun p => p.1 == id)).map (fun p => p.2)

/-- Key deletion (`delete store[id]`). -/
def eraseKey (s : Store) (id : String) : Store :=
  s.filter (fun p => !(p.1 == id))

/-- The keys of the mapping (`Object.keys`). -/
def keys (s : Store) : List String := s.map Prod.fst

/-- Observable events of one watch cycle, in program order. -/
inductive Event where
  /-- `memento.update(CODECATALYST_RECONNECT_KEY, s)` -/
  | storeWrite (s : Store)
  /-- `client.getDevEnvironment({id, spaceName, projectName})` -/
  | query (id : String)
  /-- the initial `progress.report` naming all restarting environments -/
  | reportRestarting (names : List String)
  /-- `progress.report`: environment running, attempting to re-open -/
  | reportRunning (name : String)
  /-- `progress.report`: environment terminating -/
  | reportTerminating (name : String)
  /-- `progress.report`: environment expired -/
  | reportExpired (name : String)
  /-- `codeCatalystConnectCommand.execute(client, identifier, workspace)` -/
  | openSeq (id : String) (workspace : String)
  /-- `vscode.commands.executeCommand` with `workbench.action.closeWindow` -/
  | closeTrigger
  /-- `showViewLogsMessage` for an environment whose status query threw -/
  | warnFail (name : String)
  /-- `showInformationMessage` for a reconnected environment (`handleRestart`) -/
  | infoReconnected (name : String)
deriving DecidableEq

/-- External collaborators of one watch cycle: the status-query results per
tick and id (`Except.error` models a thrown exception, `Except.ok st` a
response whose `status` field is `st`), the clock read by `Date.now()` at
each tick, and the cancellation token as observed at each tick boundary. -/
structure PollEnv where
  query : Nat → String → Except Unit (Option String)
  now : Nat → Nat
  cancelled : Nat → Bool

/-- `getDevEnvName`: `alias && alias !== '' ? alias : id`. -/
def getDevEnvName (aliasName : Option String) (id : String) : String :=
  match aliasName with
  | some a => if a == "" then id else a
  | none => id

/-- `isExpired`: `Date.now() - previousConnectionTime > MAX_RECONNECT_TIME`.
Truncated subtraction agrees with the JS comparison here: a negative
difference is never greater than the positive window. -/
def isExpired (now previousConnectionTime : Nat) : Bool :=
  MAX_RECONNECT_TIME < now - previousConnectionTime

/-- `isTerminating`: a falsy status (`undefined`; also the empty string, which
is not one of the three names anyway) is not terminating, otherwise the
status must be FAILED, DELETING or DELETED. -/
def isTerminating (status : Option String) : Bool :=
  match status with
  | none => false
  | some s => s == "FAILED" || s == "DELETING" || s == "DELETED"

/-- `filterInvalidDevEnvs`: delete every record that is expired or already
`attemptingReconnect`.  The source deletes in place while iterating the keys,
deleting only the key under inspection, which is exactly a filter. -/
def filterInvalidDevEnvs (now : Nat) (devenvs : Store) : Store :=
  devenvs.filter (fun p =>
    !(isExpired now p.2.previousConnectionTimestamp || p.2.attemptingReconnect))

/-- The per-record flag update performed by `setWatchedDevEnvStatus`. -/
def setFlag (watchStatus : Bool) (d : DevEnvMemento) : DevEnvMemento :=
  { d with attemptingReconnect := watchStatus }

/-- `setWatchedDevEnvStatus`: set every record's `attemptingReconnect` flag and
`memento.update` the working set as the new full value of the key.  The
returned list is at once the updated working set and the newly persisted
store value. -/
def setWatchedDevEnvStatus (devenvs : Store) (watchStatus : Bool) : Store :=
  devenvs.map (fun p => (p.1, setFlag watchStatus p.2))

/-- `failDevEnv`: re-read the store, delete the id, write it back. -/
def failDevEnv (store : Store) (devenvId : String) : Store :=
  eraseKey store devenvId

/-- `openReconnectedDevEnv`: run the connect command with the saved workspace
path, then — only when this cycle watches a single record — trigger closing
the current window. -/
def openReconnectedDevEnv (id : String) (devenv : DevEnvMemento)
    (closeRootInstance : Bool) : List Event :=
  Event.openSeq id devenv.previousVscodeWorkspace ::
    (if closeRootInstance then [Event.closeTrigger] else [])

/-- Result of a (partial) run: the persisted store, the in-memory working set,
and the trace of observable events, in order. -/
structure StepResult where
  store : Store
  working : Store
  trace : List Event
deriving DecidableEq

/-- The body of the `for (const id in devenvs)` loop of `pollDevEnvs` for one
record: query the status, then branch exactly as the source does (RUNNING,
terminating, expired, otherwise), or — when the query throws — `failDevEnv`,
drop the record from the working set and warn. -/
def processRecord (env : PollEnv) (tick : Nat) (shouldCloseRootInstance : Bool)
    (store working : Store) (id : String) (details : DevEnvMemento) :
    StepResult :=
  let devenvName := getDevEnvName details.aliasName id
  match env.query tick id with
  | Except.error _ =>
      ⟨failDevEnv store id, eraseKey working id,
        [Event.query id, Event.storeWrite (failDevEnv store id),
         Event.warnFail devenvName]⟩
  | Except.ok status =>
      if status == some "RUNNING" then
        ⟨store, eraseKey working id,
          Event.query id :: Event.reportRunning devenvName ::
            openReconnectedDevEnv id details shouldCloseRootInstance⟩
      else if isTerminating status then
        ⟨store, eraseKey working id,
          [Event.query id, Event.reportTerminating devenvName]⟩
      else if isExpired (env.now tick) details.previousConnectionTimestamp then
        ⟨store, working, [Event.query id, Event.reportExpired devenvName]⟩
      else
        ⟨store, working, [Event.query id]⟩

/-- One tick of the poll loop: iterate the snapshot of the working set's
entries (each step deletes at most the id it is processing, so iterating the
entry list taken at the start of the tick is faithful to `for ... in`). -/
def pollEntries (env : PollEnv) (tick : Nat) (shouldClose : Bool) :
    List (String × DevEnvMemento) → Store → Store → StepResult
  | [], store, working => ⟨store, working, []⟩
  | (id, details) :: rest, store, working =>
      let r := processRecord env tick shouldClose store working id details
      let r2 := pollEntries env tick shouldClose rest r.store r.working
      ⟨r2.store, r2.working, r.trace ++ r2.trace⟩

/-- The `while (Object.keys(devenvs).length > 0)` loop of `pollDevEnvs`,
run for at most `fuel` ticks.  At each tick boundary: exit when the working
set is empty; on cancellation write the working set back with the
`attemptingReconnect` flags cleared and stop; otherwise process every record
and sleep until the next tick. -/
def pollLoop (env : PollEnv) (sc : Bool) :
    Nat → Nat → Store → Store → StepResult
  | 0, _, store, working => ⟨store, working, []⟩
  | fuel + 1, tick, store, working =>
      if working.isEmpty then ⟨store, working, []⟩
      else if env.cancelled tick then
        let cleared := setWatchedDevEnvStatus working false
        ⟨cleared, cleared, [Event.storeWrite cleared]⟩
      else
        let r := pollEntries env tick sc working store working
        let r2 := pollLoop env sc fuel (tick + 1) r.store r.working
        ⟨r2.store, r2.working, r.trace ++ r2.trace⟩

/-- `pollDevEnvs`: first claim every working-set record
(`setWatchedDevEnvStatus(memento, devenvs, true)`, a single write replacing
the persisted value with the working set), compute the single-record flag,
then run the poll loop.  The store after the claim write is exactly the
claimed working set, which is why no separate store argument is needed. -/
def pollDevEnvs (env : PollEnv) (fuel : Nat) (devenvs : Store) : StepResult :=
  let claimed := setWatchedDevEnvStatus devenvs true
  let shouldCloseRootInstance := claimed.length == 1
  let r := pollLoop env shouldCloseRootInstance fuel 0 claimed claimed
  ⟨r.store, r.working, Event.storeWrite claimed :: r.trace⟩

/-- `reconnectDevEnvs`: read the store, filter the invalid records (in place,
so the filtered object is what later gets claimed and written), return
silently when nothing is left, otherwise report the restarting names and run
`pollDevEnvs`.  Returns the final store and the event trace. -/
def reconnectDevEnvs (env : PollEnv) (fuel : Nat) (store : Store) :
    Store × List Event :=
  let validDevEnvs := filterInvalidDevEnvs (env.now 0) store
  if validDevEnvs.isEmpty then (store, [])
  else
    let devenvNames := validDevEnvs.map (fun p => getDevEnvName p.2.aliasName p.1)
    let r := pollDevEnvs env fuel validDevEnvs
    (r.store, Event.reportRestarting devenvNames :: r.trace)

/-- `handleRestart`: when the process runs inside a dev environment (`envId`
defined) there is no polling — if that id has a pending record, report the
reconnection, delete exactly that record and write the store back, otherwise
do nothing; when `envId` is undefined, resume via `reconnectDevEnvs`. -/
def handleRestart (env : PollEnv) (fuel : Nat) (store : Store)
    (envId : Option String) : Store × List Event :=
  match envId with
  | some id =>
      match lookup store id with
      | some devenv =>
          let devenvName := getDevEnvName devenv.aliasName id
          let newStore := eraseKey store id
          (newStore,
            [Event.infoReconnected devenvName, Event.storeWrite newStore])
      | none => (store, [])
  | none => reconnectDevEnvs env fuel store

/-- Whether the record keyed `id` would be dropped from the working set by its
processing at `tick`: its query threw, or returned RUNNING, or returned a
terminating status.  (An expired record is reported but kept.) -/
def removesFromWorking (env : PollEnv) (tick : Nat) (id : String) : Bool :=
  match env.query tick id with
  | Except.error _ => true
  | Except.ok st => st == some "RUNNING" || isTerminating st

/-- Whether the query for `id` at `tick` returns a RUNNING status. -/
def runningQuery (env : PollEnv) (tick : Nat) (id : String) : Bool :=
  match env.query tick id with
  | Except.error _ => false
  | Except.ok st => st == some "RUNNING"

/-- Whether the query for `id` at `tick` throws. -/
def errorQuery (env : PollEnv) (tick : Nat) (id : String) : Bool :=
  match env.query tick id with
  | Except.error _ => true
  | Except.ok _ => false

/-- Recognizer for a connect-command event for a given id. -/
def isOpenFor (id : String) : Event → Bool
  | Event.openSeq j _ => j == id
  | _ => false

/-- Recognizer for a status-query event for a given id. -/
def isQueryOf (id : String) : Event → Bool
  | Event.query j => j == id
  | _ => false

/-- Recognizer for any status-query event. -/
def isQuery : Event → Bool
  | Event.query _ => true
  | _ => false

/-- Whether some entry of the list has the given key. -/
def keyIn (j : String) (L : List (String × DevEnvMemento)) : Bool :=
  L.any (fun q => q.1 == j)

/-! ### Association-list facts -/

lemma lookup_cons (p : String × DevEnvMemento) (s : Store) (j : String) :
    lookup (p :: s) j = if p.1 == j then some p.2 else lookup s j := by
  cases h : (p.1 == j) <;> simp [lookup, List.find?_cons, h]

lemma eraseKey_cons (p : String × DevEnvMemento) (s : Store) (id : String) :
    eraseKey (p :: s) id =
      if p.1 == id then eraseKey s id else p :: eraseKey s id := by
  cases h : (p.1 == id) <;> simp [eraseKey, List.filter_cons, h]

lemma lookup_eraseKey_self (s : Store) (id : String) :
    lookup (eraseKey s id) id = none := by
  induction s with
  | nil => rfl
  | cons p t ih =>
      rw [eraseKey_cons]
      cases h : (p.1 == id) with
      | true => simpa [h] using ih
      | false => simpa [lookup_cons, h] using ih

lemma lookup_eraseKey_ne (s : Store) (id j : String) (h : j ≠ id) :
    lookup (eraseKey s id) j = lookup s j := by
  induction s with
  | nil => rfl
  | cons p t ih =>
      rw [eraseKey_cons]
      by_cases h1 : p.1 = id
      · have hb : (p.1 == id) = true := by simpa using h1
        have h2 : (p.1 == j) = false := by
          simp only [beq_eq_false_iff_ne, ne_eq]
          intro he
          exact h (h1 ▸ he.symm)
        simp [hb, lookup_cons, h2, ih]
      · have hb : (p.1 == id) = false := by simpa using h1
        simp only [hb, Bool.false_eq_true, if_false]
        rw [lookup_cons, lookup_cons, ih]

lemma mem_keys_of_mem {s : Store} {id : String} {d : DevEnvMemento}
    (h : (id, d) ∈ s) : id ∈ keys s :=
  List.mem_map_of_mem Prod.fst h

lemma exists_of_mem_keys {s : Store} {j : String} (h : j ∈ keys s) :
    ∃ d, (j, d) ∈ s := by
  rcases List.mem_map.1 h with ⟨p, hp, hfst⟩
  exact ⟨p.2, by simpa [← hfst] using hp⟩

lemma lookup_eq_some_of_mem {s : Store} {id : String} {d : DevEnvMemento}
    (hnd : (keys s).Nodup) (hmem : (id, d) ∈ s) : lookup s id = some d := by
  induction s with
  | nil => cases hmem
  | cons p t ih =>
      have hnd' : p.1 ∉ keys t ∧ (keys t).Nodup := by
        simpa [keys] using hnd
      rcases List.mem_cons.1 hmem with h | h
      · simp [lookup_cons, ← h]
      · have hne : (p.1 == id) = false := by
          simp only [beq_eq_false_iff_ne, ne_eq]
          intro he
          exact hnd'.1 (he ▸ mem_keys_of_mem h)
        simp [lookup_cons, hne, ih hnd'.2 h]

lemma keys_filter_subset {w : Store} {f : String × DevEnvMemento → Bool}
    {j : String} (h : j ∈ keys (w.filter f)) : j ∈ keys w :=
  ((List.filter_sublist w).map Prod.fst).subset h

lemma nodup_keys_filter {w : Store} (f : String × DevEnvMemento → Bool)
    (h : (keys w).Nodup) : (keys (w.filter f)).Nodup :=
  h.sublist ((List.filter_sublist w).map Prod.fst)

lemma keys_setWatchedDevEnvStatus (w : Store) (b : Bool) :
    keys (setWatchedDevEnvStatus w b) = keys w := by
  simp [keys, setWatchedDevEnvStatus]

lemma mem_setWatchedDevEnvStatus {w : Store} {id : String} {d : DevEnvMemento}
    (h : (id, d) ∈ w) (b : Bool) :
    (id, setFlag b d) ∈ setWatchedDevEnvStatus w b :=
  List.mem_map_of_mem (fun p => (p.1, setFlag b p.2)) h

/-! ### Counting entries by key -/

lemma countP_keyed_one {L : List (String × DevEnvMemento)} (f : String → Bool)
    {j : String} {d : DevEnvMemento} (hnd : (keys L).Nodup)
    (hmem : (j, d) ∈ L) (hf : f j = true) :
    L.countP (fun p => p.1 == j && f p.1) = 1 := by
  induction L with
  | nil => cases hmem
  | cons p t ih =>
      have hnd' : p.1 ∉ keys t ∧ (keys t).Nodup := by
        simpa [keys] using hnd
      rw [List.countP_cons]
      rcases List.mem_cons.1 hmem with h | h
      · have hp1 : p.1 = j := by rw [← h]
        have hz : t.countP (fun p => p.1 == j && f p.1) = 0 := by
          rw [List.countP_eq_zero]
          intro q hq hcon
          simp only [Bool.and_eq_true, beq_iff_eq] at hcon
          have hj : j ∈ keys t := hcon.1 ▸ mem_keys_of_mem hq
          exact hnd'.1 (hp1.symm ▸ hj)
        simp [hz, hp1, hf]
      · have hne : (p.1 == j) = false := by
          simp only [beq_eq_false_iff_ne, ne_eq]
          intro he
          exact hnd'.1 (he ▸ mem_keys_of_mem h)
        simp [hne, ih hnd'.2 h]

lemma countP_keyed_zero_g {L : List (String × DevEnvMemento)}
    (f : String → Bool) {j : String} (hf : f j = false) :
    L.countP (fun p => p.1 == j && f p.1) = 0 := by
  rw [List.countP_eq_zero]
  intro q _ hcon
  simp only [Bool.and_eq_true, beq_iff_eq] at hcon
  rw [hcon.1, hf] at hcon
  exact Bool.false_ne_true hcon.2

lemma countP_keyed_zero_nomem {L : List (String × DevEnvMemento)}
    (f : String → Bool) {j : String} (h : j ∉ keys L) :
    L.countP (fun p => p.1 == j && f p.1) = 0 := by
  rw [List.countP_eq_zero]
  intro q hq hcon
  simp only [Bool.and_eq_true, beq_iff_eq] at hcon
  exact h (hcon.1 ▸ mem_keys_of_mem hq)

lemma countP_fst_one {L : List (String × DevEnvMemento)} {j : String}
    {d : DevEnvMemento} (hnd : (keys L).Nodup) (hmem : (j, d) ∈ L) :
    L.countP (fun p => p.1 == j) = 1 := by
  have h := countP_keyed_one (fun _ => true) hnd hmem rfl
  simpa using h

lemma countP_fst_zero {L : List (String × DevEnvMemento)} {j : String}
    (h : j ∉ keys L) : L.countP (fun p => p.1 == j) = 0 := by
  have hz := countP_keyed_zero_nomem (fun _ => true) h
  simpa using hz

/-! ### Event recognizer evaluation -/

@[simp] lemma isOpenFor_storeWrite (j : String) (s : Store) :
    isOpenFor j (Event.storeWrite s) = false := rfl
@[simp] lemma isOpenFor_query (j i : String) :
    isOpenFor j (Event.query i) = false := rfl
@[simp] lemma isOpenFor_reportRestarting (j : String) (ns : List String) :
    isOpenFor j (Event.reportRestarting ns) = false := rfl
@[simp] lemma isOpenFor_reportRunning (j n : String) :
    isOpenFor j (Event.reportRunning n) = false := rfl
@[simp] lemma isOpenFor_reportTerminating (j n : String) :
    isOpenFor j (Event.reportTerminating n) = false := rfl
@[simp] lemma isOpenFor_reportExpired (j n : String) :
    isOpenFor j (Event.reportExpired n) = false := rfl
@[simp] lemma isOpenFor_openSeq (j i w : String) :
    isOpenFor j (Event.openSeq i w) = (i == j) := rfl
@[simp] lemma isOpenFor_closeTrigger (j : String) :
    isOpenFor j Event.closeTrigger = false := rfl
@[simp] lemma isOpenFor_warnFail (j n : String) :
    isOpenFor j (Event.warnFail n) = false := rfl
@[simp] lemma isOpenFor_infoReconnected (j n : String) :
    isOpenFor j (Event.infoReconnected n) = false := rfl

@[simp] lemma isQueryOf_storeWrite (j : String) (s : Store) :
    isQueryOf j (Event.storeWrite s) = false := rfl
@[simp] lemma isQueryOf_query (j i : String) :
    isQueryOf j (Event.query i) = (i == j) := rfl
@[simp] lemma isQueryOf_reportRestarting (j : String) (ns : List String) :
    isQueryOf j (Event.reportRestarting ns) = false := rfl
@[simp] lemma isQueryOf_reportRunning (j n : String) :
    isQueryOf j (Event.reportRunning n) = false := rfl
@[simp] lemma isQueryOf_reportTerminating (j n : String) :
    isQueryOf j (Event.reportTerminating n) = false := rfl
@[simp] lemma isQueryOf_reportExpired (j n : String) :
    isQueryOf j (Event.reportExpired n) = false := rfl
@[simp] lemma isQueryOf_openSeq (j i w : String) :
    isQueryOf j (Event.openSeq i w) = false := rfl
@[simp] lemma isQueryOf_closeTrigger (j : String) :
    isQueryOf j Event.closeTrigger = false := rfl
@[simp] lemma isQueryOf_warnFail (j n : String) :
    isQueryOf j (Event.warnFail n) = false := rfl
@[simp] lemma isQueryOf_infoReconnected (j n : String) :
    isQueryOf j (Event.infoReconnected n) = false := rfl

@[simp] lemma isQuery_storeWrite (s : Store) :
    isQuery (Event.storeWrite s) = false := rfl
@[simp] lemma isQuery_query (i : String) :
    isQuery (Event.query i) = true := rfl
@[simp] lemma isQuery_reportRestarting (ns : List String) :
    isQuery (Event.reportRestarting ns) = false := rfl
@[simp] lemma isQuery_infoReconnected (n : String) :
    isQuery (Event.infoReconnected n) = false := rfl

/-! ### Per-record processing facts -/

lemma processRecord_store (env : PollEnv) (tick : Nat) (sc : Bool)
    (store working : Store) (id : String) (details : DevEnvMemento) :
    (processRecord env tick sc store working id details).store
      = if errorQuery env tick id then eraseKey store id else store := by
  cases h : env.query tick id with
  | error e => simp [processRecord, errorQuery, failDevEnv, h]
  | ok st =>
      have he : errorQuery env tick id = false := by simp [errorQuery, h]
      rw [he]
      simp only [processRecord, h, Bool.false_eq_true, if_false]
      split
      · rfl
      · split
        · rfl
        · split <;> rfl

lemma processRecord_working (env : PollEnv) (tick : Nat) (sc : Bool)
    (store working : Store) (id : String) (details : DevEnvMemento) :
    (processRecord env tick sc store working id details).working
      = if removesFromWorking env tick id then eraseKey working id
        else working := by
  cases h : env.query tick id with
  | error e => simp [processRecord, removesFromWorking, h]
  | ok st =>
      simp only [processRecord, removesFromWorking, h]
      by_cases h1 : (st == some "RUNNING") = true
      · simp [h1]
      · rw [Bool.not_eq_true] at h1
        by_cases h2 : isTerminating st = true
        · simp [h1, h2]
        · rw [Bool.not_eq_true] at h2
          simp only [h1, h2, Bool.false_eq_true, if_false, Bool.or_self]
          split <;> rfl

lemma processRecord_countOpen (env : PollEnv) (tick : Nat) (sc : Bool)
    (store working : Store) (id : String) (details : DevEnvMemento)
    (j : String) :
    (processRecord env tick sc store working id details).trace.countP
        (isOpenFor j)
      = if (id == j && runningQuery env tick id) then 1 else 0 := by
  cases h : env.query tick id with
  | error e =>
      simp [processRecord, runningQuery, h, List.countP_cons]
  | ok st =>
      simp only [processRecord, runningQuery, h]
      by_cases h1 : (st == some "RUNNING") = true
      · simp only [h1, if_true, Bool.and_true]
        cases hj : (id == j) <;>
          cases hc : sc <;>
            simp [openReconnectedDevEnv, hj, hc, List.countP_cons]
      · rw [Bool.not_eq_true] at h1
        simp only [h1, Bool.false_eq_true, if_false, Bool.and_false]
        split
        · simp [List.countP_cons]
        · split <;> simp [List.countP_cons]

lemma processRecord_countQuery (env : PollEnv) (tick : Nat) (sc : Bool)
    (store working : Store) (id : String) (details : DevEnvMemento)
    (j : String) :
    (processRecord env tick sc store working id details).trace.countP
        (isQueryOf j)
      = if (id == j) then 1 else 0 := by
  cases h : env.query tick id with
  | error e =>
      simp [processRecord, h, List.countP_cons]
  | ok st =>
      simp only [processRecord, h]
      split
      · cases hc : sc <;>
          simp [openReconnectedDevEnv, hc, List.countP_cons]
      · split
        · simp [List.countP_cons]
        · split <;> simp [List.countP_cons]

lemma processRecord_noclose (env : PollEnv) (tick : Nat)
    (store working : Store) (id : String) (details : DevEnvMemento) :
    Event.closeTrigger ∉
      (processRecord env tick false store working id details).trace := by
  cases h : env.query tick id with
  | error e => simp [processRecord, h]
  | ok st =>
      simp only [processRecord, h]
      split
      · simp [openReconnectedDevEnv]
      · split
        · simp
        · split <;> simp

lemma processRecord_open_mem (env : PollEnv) (tick : Nat) (sc : Bool)
    (store working : Store) (id : String) (details : DevEnvMemento)
    (hq : env.query tick id = Except.ok (some "RUNNING")) :
    Event.openSeq id details.previousVscodeWorkspace ∈
      (processRecord env tick sc store working id details).trace := by
  simp [processRecord, hq, openReconnectedDevEnv]

lemma processRecord_term_mem (env : PollEnv) (tick : Nat) (sc : Bool)
    (store working : Store) (id : String) (details : DevEnvMemento)
    {st : Option String} (hq : env.query tick id = Except.ok st)
    (ht : isTerminating st = true) :
    Event.reportTerminating (getDevEnvName details.aliasName id) ∈
      (processRecord env tick sc store working id details).trace := by
  have h1 : (st == some "RUNNING") = false := by
    simp only [beq_eq_false_iff_ne, ne_eq]
    intro he
    rw [he] at ht
    simp [isTerminating] at ht
  simp [processRecord, hq, h1, ht]

lemma processRecord_warn_mem (env : PollEnv) (tick : Nat) (sc : Bool)
    (store working : Store) (id : String) (details : DevEnvMemento)
    (hq : errorQuery env tick id = true) :
    Event.warnFail (getDevEnvName details.aliasName id) ∈
      (processRecord env tick sc store working id details).trace := by
  cases h : env.query tick id with
  | error e => simp [processRecord, h]
  | ok st => rw [errorQuery, h] at hq; exact absurd hq (by simp)

/-! ### One-tick facts -/

lemma pollEntries_countOpen (env : PollEnv) (tick : Nat) (sc : Bool)
    (j : String) :
    ∀ (L : List (String × DevEnvMemento)) (s w : Store),
      (pollEntries env tick sc L s w).trace.countP (isOpenFor j)
        = L.countP (fun p => p.1 == j && runningQuery env tick p.1) := by
  intro L
  induction L with
  | nil => intro s w; simp [pollEntries]
  | cons q t ih =>
      intro s w
      obtain ⟨id, d⟩ := q
      simp only [pollEntries, List.countP_append, List.countP_cons]
      rw [processRecord_countOpen, ih]
      omega

lemma pollEntries_countQuery (env : PollEnv) (tick : Nat) (sc : Bool)
    (j : String) :
    ∀ (L : List (String × DevEnvMemento)) (s w : Store),
      (pollEntries env tick sc L s w).trace.countP (isQueryOf j)
        = L.countP (fun p => p.1 == j) := by
  intro L
  induction L with
  | nil => intro s w; simp [pollEntries]
  | cons q t ih =>
      intro s w
      obtain ⟨id, d⟩ := q
      simp only [pollEntries, List.countP_append, List.countP_cons]
      rw [processRecord_countQuery, ih]
      omega

lemma pollEntries_working (env : PollEnv) (tick : Nat) (sc : Bool) :
    ∀ (L : List (String × DevEnvMemento)) (s w : Store),
      (pollEntries env tick sc L s w).working
        = w.filter
            (fun p => !(keyIn p.1 L && removesFromWorking env tick p.1)) := by
  intro L
  induction L with
  | nil =>
      intro s w
      simp [pollEntries, keyIn]
  | cons q t ih =>
      intro s w
      obtain ⟨id, d⟩ := q
      simp only [pollEntries]
      rw [ih, processRecord_working]
      by_cases hrm : removesFromWorking env tick id = true
      · simp only [hrm, if_true]
        rw [eraseKey, List.filter_filter]
        apply List.filter_congr
        intro a _
        by_cases hpi : a.1 = id
        · simp [keyIn, List.any_cons, hpi, hrm]
        · have hb : (id == a.1) = false := by
            simp only [beq_eq_false_iff_ne, ne_eq]
            intro he
            exact hpi he.symm
          have hb2 : (a.1 == id) = false := by
            simp only [beq_eq_false_iff_ne, ne_eq]
            exact hpi
          simp [keyIn, List.any_cons, hb, hb2]
      · rw [Bool.not_eq_true] at hrm
        simp only [hrm, Bool.false_eq_true, if_false]
        apply List.filter_congr
        intro a _
        by_cases hpi : a.1 = id
        · simp [keyIn, List.any_cons, hpi, hrm]
        · have hb : (id == a.1) = false := by
            simp only [beq_eq_false_iff_ne, ne_eq]
            intro he
            exact hpi he.symm
          simp [keyIn, List.any_cons, hb]

lemma pollEntries_lookup_stable (env : PollEnv) (tick : Nat) (sc : Bool)
    (j : String) :
    ∀ (L : List (String × DevEnvMemento)) (s w : Store),
      (∀ q ∈ L, q.1 = j → errorQuery env tick q.1 = false) →
      lookup (pollEntries env tick sc L s w).store j = lookup s j := by
  intro L
  induction L with
  | nil => intro s w _; rfl
  | cons q t ih =>
      intro s w hL
      obtain ⟨id, d⟩ := q
      simp only [pollEntries]
      rw [ih _ _ (fun q hq => hL q (List.mem_cons_of_mem _ hq)),
        processRecord_store]
      by_cases herr : errorQuery env tick id = true
      · have hne : j ≠ id := by
          intro he
          have h0 := hL (id, d) (List.mem_cons_self _ _) he.symm
          rw [h0] at herr
          exact Bool.false_ne_true herr
        simp only [herr, if_true]
        exact lookup_eraseKey_ne s id j hne
      · rw [Bool.not_eq_true] at herr
        simp [herr]

lemma pollEntries_lookup_none (env : PollEnv) (tick : Nat) (sc : Bool)
    (j : String) :
    ∀ (L : List (String × DevEnvMemento)) (s w : Store),
      lookup s j = none →
      lookup (pollEntries env tick sc L s w).store j = none := by
  intro L
  induction L with
  | nil => intro s w hs; exact hs
  | cons q t ih =>
      intro s w hs
      obtain ⟨id, d⟩ := q
      simp only [pollEntries]
      apply ih
      rw [processRecord_store]
      by_cases herr : errorQuery env tick id = true
      · simp only [herr, if_true]
        by_cases hji : j = id
        · rw [hji]
          exact lookup_eraseKey_self s id
        · rw [lookup_eraseKey_ne s id j hji]
          exact hs
      · rw [Bool.not_eq_true] at herr
        simpa [herr] using hs

lemma pollEntries_lookup_erased (env : PollEnv) (tick : Nat) (sc : Bool)
    {id : String} (herr : errorQuery env tick id = true) :
    ∀ (L : List (String × DevEnvMemento)) (s w : Store)
      (d : DevEnvMemento), (id, d) ∈ L →
      lookup (pollEntries env tick sc L s w).store id = none := by
  intro L
  induction L with
  | nil => intro s w d hmem; cases hmem
  | cons q t ih =>
      intro s w d hmem
      obtain ⟨qi, qd⟩ := q
      simp only [pollEntries]
      rcases List.mem_cons.1 hmem with h | h
      · injection h with h1 h2
        subst h1
        apply pollEntries_lookup_none
        rw [processRecord_store]
        simp only [herr, if_true]
        exact lookup_eraseKey_self s id
      · exact ih _ _ d h

lemma pollEntries_noclose (env : PollEnv) (tick : Nat) :
    ∀ (L : List (String × DevEnvMemento)) (s w : Store),
      Event.closeTrigger ∉ (pollEntries env tick false L s w).trace := by
  intro L
  induction L with
  | nil => intro s w; simp [pollEntries]
  | cons q t ih =>
      intro s w
      obtain ⟨id, d⟩ := q
      simp only [pollEntries, List.mem_append, not_or]
      exact ⟨processRecord_noclose env tick _ _ id d, ih _ _⟩

lemma pollEntries_open_mem (env : PollEnv) (tick : Nat) (sc : Bool)
    {id : String} {d : DevEnvMemento}
    (hq : env.query tick id = Except.ok (some "RUNNING")) :
    ∀ (L : List (String × DevEnvMemento)) (s w : Store), (id, d) ∈ L →
      Event.openSeq id d.previousVscodeWorkspace ∈
        (pollEntries env tick sc L s w).trace := by
  intro L
  induction L with
  | nil => intro s w hmem; cases hmem
  | cons q t ih =>
      intro s w hmem
      obtain ⟨qi, qd⟩ := q
      simp only [pollEntries, List.mem_append]
      rcases List.mem_cons.1 hmem with h | h
      · injection h with h1 h2
        subst h1
        subst h2
        exact Or.inl (processRecord_open_mem env tick sc s w id d hq)
      · exact Or.inr (ih _ _ h)

lemma pollEntries_term_mem (env : PollEnv) (tick : Nat) (sc : Bool)
    {id : String} {d : DevEnvMemento} {st : Option String}
    (hq : env.query tick id = Except.ok st) (ht : isTerminating st = true) :
    ∀ (L : List (String × DevEnvMemento)) (s w : Store), (id, d) ∈ L →
      Event.reportTerminating (getDevEnvName d.aliasName id) ∈
        (pollEntries env tick sc L s w).trace := by
  intro L
  induction L with
  | nil => intro s w hmem; cases hmem
  | cons q t ih =>
      intro s w hmem
      obtain ⟨qi, qd⟩ := q
      simp only [pollEntries, List.mem_append]
      rcases List.mem_cons.1 hmem with h | h
      · injection h with h1 h2
        subst h1
        subst h2
        exact Or.inl (processRecord_term_mem env tick sc s w id d hq ht)
      · exact Or.inr (ih _ _ h)

lemma pollEntries_warn_mem (env : PollEnv) (tick : Nat) (sc : Bool)
    {id : String} {d : DevEnvMemento}
    (hq : errorQuery env tick id = true) :
    ∀ (L : List (String × DevEnvMemento)) (s w : Store), (id, d) ∈ L →
      Event.warnFail (getDevEnvName d.aliasName id) ∈
        (pollEntries env tick sc L s w).trace := by
  intro L
  induction L with
  | nil => intro s w hmem; cases hmem
  | cons q t ih =>
      intro s w hmem
      obtain ⟨qi, qd⟩ := q
      simp only [pollEntries, List.mem_append]
      rcases List.mem_cons.1 hmem with h | h
      · injection h with h1 h2
        subst h1
        subst h2
        exact Or.inl (processRecord_warn_mem env tick sc s w id d hq)
      · exact Or.inr (ih _ _ h)

lemma nodup_keys_pollEntries (env : PollEnv) (tick : Nat) (sc : Bool)
    (L : List (String × DevEnvMemento)) (s w : Store)
    (h : (keys w).Nodup) :
    (keys (pollEntries env tick sc L s w).working).Nodup := by
  rw [pollEntries_working]
  exact nodup_keys_filter _ h

lemma pollEntries_not_mem_keys (env : PollEnv) (tick : Nat) (sc : Bool)
    {L : List (String × DevEnvMemento)} (s w : Store) {j : String}
    {d : DevEnvMemento} (hmem : (j, d) ∈ L)
    (hrm : removesFromWorking env tick j = true) :
    j ∉ keys (pollEntries env tick sc L s w).working := by
  rw [pollEntries_working]
  intro hk
  rcases exists_of_mem_keys hk with ⟨e, he⟩
  have hf := (List.mem_filter.1 he).2
  have hkey : keyIn j L = true := by
    rw [keyIn, List.any_eq_true]
    exact ⟨(j, d), hmem, by simp⟩
  rw [hkey, hrm] at hf
  simp at hf

lemma pollEntries_keeps (env : PollEnv) (tick : Nat) (sc : Bool)
    (L : List (String × DevEnvMemento)) (s w : Store) {j : String}
    {e : DevEnvMemento} (hmem : (j, e) ∈ w)
    (hrm : removesFromWorking env tick j = false) :
    (j, e) ∈ (pollEntries env tick sc L s w).working := by
  rw [pollEntries_working]
  exact List.mem_filter.2 ⟨hmem, by simp [hrm]⟩

lemma pollEntries_absent_not_mem (env : PollEnv) (tick : Nat) (sc : Bool)
    (L : List (String × DevEnvMemento)) (s w : Store) {j : String}
    (h : j ∉ keys w) :
    j ∉ keys (pollEntries env tick sc L s w).working := by
  rw [pollEntries_working]
  intro hk
  exact h (keys_filter_subset hk)

/-! ### Poll-loop facts -/

lemma pollLoop_nil (env : PollEnv) (sc : Bool) (fuel tick : Nat) (s : Store) :
    pollLoop env sc fuel tick s [] = ⟨s, [], []⟩ := by
  cases fuel <;> simp [pollLoop]

lemma pollLoop_step (env : PollEnv) (sc : Bool) (n tick : Nat) (s w : Store)
    (hw : w.isEmpty = false) (hc : env.cancelled tick = false) :
    pollLoop env sc (n + 1) tick s w
      = ⟨(pollLoop env sc n (tick + 1) (pollEntries env tick sc w s w).store
            (pollEntries env tick sc w s w).working).store,
         (pollLoop env sc n (tick + 1) (pollEntries env tick sc w s w).store
            (pollEntries env tick sc w s w).working).working,
         (pollEntries env tick sc w s w).trace ++
           (pollLoop env sc n (tick + 1) (pollEntries env tick sc w s w).store
              (pollEntries env tick sc w s w).working).trace⟩ := by
  simp [pollLoop, hw, hc]

lemma pollLoop_absent (env : PollEnv) (sc : Bool) (j : String)
    (hnc : ∀ t, env.cancelled t = false) :
    ∀ (fuel tick : Nat) (s w : Store), j ∉ keys w →
      lookup (pollLoop env sc fuel tick s w).store j = lookup s j ∧
      j ∉ keys (pollLoop env sc fuel tick s w).working ∧
      (pollLoop env sc fuel tick s w).trace.countP (isOpenFor j) = 0 ∧
      (pollLoop env sc fuel tick s w).trace.countP (isQueryOf j) = 0 := by
  intro fuel
  induction fuel with
  | zero => intro tick s w hj; exact ⟨rfl, hj, rfl, rfl⟩
  | succ n ih =>
      intro tick s w hj
      by_cases hw : w.isEmpty = true
      · simp [pollLoop, hw, hj]
      · rw [Bool.not_eq_true] at hw
        rw [pollLoop_step env sc n tick s w hw (hnc tick)]
        have h1 : lookup (pollEntries env tick sc w s w).store j
            = lookup s j := by
          apply pollEntries_lookup_stable
          intro q hq hqj
          exact absurd (hqj ▸ mem_keys_of_mem hq) hj
        have h2 : j ∉ keys (pollEntries env tick sc w s w).working :=
          pollEntries_absent_not_mem env tick sc w s w hj
        obtain ⟨ih1, ih2, ih3, ih4⟩ :=
          ih (tick + 1) (pollEntries env tick sc w s w).store
            (pollEntries env tick sc w s w).working h2
        refine ⟨ih1.trans h1, ih2, ?_, ?_⟩
        · rw [List.countP_append, pollEntries_countOpen,
            countP_keyed_zero_nomem _ hj, ih3]
        · rw [List.countP_append, pollEntries_countQuery,
            countP_fst_zero hj, ih4]

lemma pollLoop_noclose (env : PollEnv) :
    ∀ (fuel tick : Nat) (s w : Store),
      Event.closeTrigger ∉ (pollLoop env false fuel tick s w).trace := by
  intro fuel
  induction fuel with
  | zero => intro tick s w; simp [pollLoop]
  | succ n ih =>
      intro tick s w
      by_cases hw : w.isEmpty = true
      · simp [pollLoop, hw]
      · rw [Bool.not_eq_true] at hw
        by_cases hc : env.cancelled tick = true
        · simp [pollLoop, hw, hc]
        · rw [Bool.not_eq_true] at hc
          rw [pollLoop_step env false n tick s w hw hc]
          simp only [List.mem_append, not_or]
          exact ⟨pollEntries_noclose env tick w s w, ih _ _ _⟩

@[simp] lemma StepResult_store (s w : Store) (t : List Event) :
    (StepResult.mk s w t).store = s := rfl

@[simp] lemma StepResult_working (s w : Store) (t : List Event) :
    (StepResult.mk s w t).working = w := rfl

@[simp] lemma StepResult_trace (s w : Store) (t : List Event) :
    (StepResult.mk s w t).trace = t := rfl

lemma pollDevEnvs_eq (env : PollEnv) (fuel : Nat) (devenvs : Store) :
    pollDevEnvs env fuel devenvs
      = ⟨(pollLoop env ((setWatchedDevEnvStatus devenvs true).length == 1)
            fuel 0 (setWatchedDevEnvStatus devenvs true)
            (setWatchedDevEnvStatus devenvs true)).store,
         (pollLoop env ((setWatchedDevEnvStatus devenvs true).length == 1)
            fuel 0 (setWatchedDevEnvStatus devenvs true)
            (setWatchedDevEnvStatus devenvs true)).working,
         Event.storeWrite (setWatchedDevEnvStatus devenvs true) ::
           (pollLoop env ((setWatchedDevEnvStatus devenvs true).length == 1)
              fuel 0 (setWatchedDevEnvStatus devenvs true)
              (setWatchedDevEnvStatus devenvs true)).trace⟩ := rfl

/-! ### Concrete fixtures for evaluating the theorems -/

/-- A sample record (workspace `/projects`, no alias, timestamp 0). -/
def sampleRec : DevEnvMemento :=
  ⟨"/projects", "spaceA", "projA", false, 0, none⟩

/-- A second sample record, with an alias. -/
def sampleRec2 : DevEnvMemento :=
  ⟨"/home/user/ws", "spaceB", "projB", false, 0, some "beta"⟩

/-- Environment whose status queries always answer RUNNING. -/
def envRunning : PollEnv :=
  ⟨fun _ _ => Except.ok (some "RUNNING"), fun _ => 0, fun _ => false⟩

/-- Environment whose status queries always answer FAILED. -/
def envFailed : PollEnv :=
  ⟨fun _ _ => Except.ok (some "FAILED"), fun _ => 0, fun _ => false⟩

/-- Environment whose status queries always answer STOPPED. -/
def envStopped : PollEnv :=
  ⟨fun _ _ => Except.ok (some "STOPPED"), fun _ => 0, fun _ => false⟩

/-- Environment answering STOPPED with the clock past the reconnect window. -/
def envStoppedLate : PollEnv :=
  ⟨fun _ _ => Except.ok (some "STOPPED"), fun _ => MAX_RECONNECT_TIME + 1,
   fun _ => false⟩

/-- Environment whose status queries always throw. -/
def envError : PollEnv :=
  ⟨fun _ _ => Except.error (), fun _ => 0, fun _ => false⟩

/-- Environment whose cancellation token is already set. -/
def envCancelled : PollEnv :=
  ⟨fun _ _ => Except.ok (some "STOPPED"), fun _ => 0, fun _ => true⟩

/-- Environment where querying `bad` throws and any other id is PENDING. -/
def envMixed : PollEnv :=
  ⟨fun _ id => if id == "bad" then Except.error () else Except.ok (some "PENDING"),
   fun _ => 0, fun _ => false⟩

/-! ### Claim theorems -/

/-- C4: for every persisted store and current time, the working set built
before the first claim-write (`filterInvalidDevEnvs`, applied by
`reconnectDevEnvs` to the store it just read, at the current clock) contains
exactly the records that are not expired
(`now - previousConnectionTimestamp <= MAX_RECONNECT_TIME`) and do not have
`attemptingReconnect = true`. -/
theorem c4_working_set_characterization (now : Nat) (store : Store)
    (id : String) (d : DevEnvMemento) :
    (id, d) ∈ filterInvalidDevEnvs now store ↔
      (id, d) ∈ store ∧
        now - d.previousConnectionTimestamp ≤ MAX_RECONNECT_TIME ∧
        d.attemptingReconnect = false := by
  simp only [filterInvalidDevEnvs, List.mem_filter, Bool.not_eq_true',
    Bool.or_eq_false_iff, isExpired, decide_eq_false_iff_not, Nat.not_lt,
    and_assoc]

/-- C9: calling the reconnection entry point on a store every record of which
already has `attemptingReconnect = true` filters everything out and returns
immediately: the store is untouched and no event (no claim write, no status
query, no polling) is produced. -/
theorem c9_fully_claimed_noop (env : PollEnv) (fuel : Nat) (store : Store)
    (h : ∀ p ∈ store, p.2.attemptingReconnect = true) :
    reconnectDevEnvs env fuel store = (store, []) := by
  have hf : filterInvalidDevEnvs (env.now 0) store = [] := by
    rw [filterInvalidDevEnvs, List.filter_eq_nil_iff]
    intro p hp
    simp [h p hp]
  simp [reconnectDevEnvs, hf]

/-- Witness for C9: a concrete two-record store, fully claimed. -/
theorem c9_fully_claimed_noop_witness :
    (∀ p ∈ ([("a", setFlag true sampleRec), ("b", setFlag true sampleRec2)] :
        Store), p.2.attemptingReconnect = true) ∧
    reconnectDevEnvs envStopped 3
        [("a", setFlag true sampleRec), ("b", setFlag true sampleRec2)]
      = ([("a", setFlag true sampleRec), ("b", setFlag true sampleRec2)],
         []) :=
  ⟨by decide,
   c9_fully_claimed_noop envStopped 3
     [("a", setFlag true sampleRec), ("b", setFlag true sampleRec2)]
     (by decide)⟩

/-- C6: when cancellation is observed at a tick boundary while records remain
in the working set, the loop writes the working set back with every
`attemptingReconnect` flag cleared (one store write) and stops: the returned
trace is exactly that single write, so no status query and no further store
mutation happens afterwards. -/
theorem c6_cancellation_clears_and_stops (env : PollEnv) (sc : Bool)
    (fuel tick : Nat) (store working : Store)
    (hc : env.cancelled tick = true) (hne : working ≠ []) :
    pollLoop env sc (fuel + 1) tick store working
        = ⟨setWatchedDevEnvStatus working false,
           setWatchedDevEnvStatus working false,
           [Event.storeWrite (setWatchedDevEnvStatus working false)]⟩ ∧
      ∀ p ∈ setWatchedDevEnvStatus working false,
        p.2.attemptingReconnect = false := by
  constructor
  · have hw : working.isEmpty = false := by
      cases working with
      | nil => exact absurd rfl hne
      | cons a t => rfl
    simp [pollLoop, hw, hc]
  · intro p hp
    rcases List.mem_map.1 hp with ⟨q, _, hq⟩
    rw [← hq]
    rfl

/-- Witness for C6: a cancelled single-record poll loop. -/
theorem c6_cancellation_clears_and_stops_witness :
    envCancelled.cancelled 0 = true ∧
    (([("env1", sampleRec)] : Store) ≠ []) ∧
    (pollLoop envCancelled false 1 0 [] [("env1", sampleRec)]
        = ⟨[("env1", setFlag false sampleRec)],
           [("env1", setFlag false sampleRec)],
           [Event.storeWrite [("env1", setFlag false sampleRec)]]⟩ ∧
      ∀ p ∈ ([("env1", setFlag false sampleRec)] : Store),
        p.2.attemptingReconnect = false) :=
  ⟨rfl, by decide,
   c6_cancellation_clears_and_stops envCancelled false 0 0 []
     [("env1", sampleRec)] rfl (by decide)⟩

/-- C5: whenever the filtered working set is non-empty, the trace begins with
the restarting report followed immediately by the single claim write marking
`attemptingReconnect = true` for every working-set record; every status query
therefore comes after that write. -/
theorem c5_claim_write_before_queries (env : PollEnv) (fuel : Nat)
    (store : Store)
    (hne : filterInvalidDevEnvs (env.now 0) store ≠ []) :
    (reconnectDevEnvs env fuel store).2.take 2
        = [Event.reportRestarting
             ((filterInvalidDevEnvs (env.now 0) store).map
               (fun p => getDevEnvName p.2.aliasName p.1)),
           Event.storeWrite
             (setWatchedDevEnvStatus (filterInvalidDevEnvs (env.now 0) store)
               true)] ∧
      (∀ p ∈ setWatchedDevEnvStatus (filterInvalidDevEnvs (env.now 0) store)
          true, p.2.attemptingReconnect = true) ∧
      (∀ id d, (id, d) ∈ filterInvalidDevEnvs (env.now 0) store →
        (id, setFlag true d) ∈
          setWatchedDevEnvStatus (filterInvalidDevEnvs (env.now 0) store)
            true) := by
  have hw : (filterInvalidDevEnvs (env.now 0) store).isEmpty = false := by
    cases hf : filterInvalidDevEnvs (env.now 0) store with
    | nil => exact absurd hf hne
    | cons a t => rfl
  refine ⟨?_, ?_, ?_⟩
  · rw [reconnectDevEnvs]
    simp only [hw, Bool.false_eq_true, if_false, pollDevEnvs_eq,
      StepResult_trace, List.take_succ_cons, List.take_zero]
  · intro p hp
    rcases List.mem_map.1 hp with ⟨q, _, hq⟩
    rw [← hq]
    rfl
  · intro id d hd
    exact mem_setWatchedDevEnvStatus hd true

/-- Witness for C5: a single valid record produces the report then the claim
write as the first two events. -/
theorem c5_claim_write_before_queries_witness :
    filterInvalidDevEnvs (envStopped.now 0) [("env1", sampleRec)] ≠ [] ∧
    (reconnectDevEnvs envStopped 1 [("env1", sampleRec)]).2.take 2
        = [Event.reportRestarting
             ((filterInvalidDevEnvs (envStopped.now 0)
                 [("env1", sampleRec)]).map
               (fun p => getDevEnvName p.2.aliasName p.1)),
           Event.storeWrite
             (setWatchedDevEnvStatus
               (filterInvalidDevEnvs (envStopped.now 0) [("env1", sampleRec)])
               true)] :=
  ⟨by decide,
   (c5_claim_write_before_queries envStopped 1 [("env1", sampleRec)]
     (by decide)).1⟩

/-- C10: the restart handler with a defined current environment id never
polls (no status-query event); when the store holds a record under that id it
reports success and deletes exactly that record (all other lookups are
unchanged), and when it holds none the handler performs no store mutation and
no event at all. -/
theorem c10_restart_inside_env (env : PollEnv) (fuel : Nat) (store : Store)
    (id : String) :
    (∀ e ∈ (handleRestart env fuel store (some id)).2, isQuery e = false) ∧
    (∀ d, lookup store id = some d →
      handleRestart env fuel store (some id)
          = (eraseKey store id,
             [Event.infoReconnected (getDevEnvName d.aliasName id),
              Event.storeWrite (eraseKey store id)]) ∧
        ∀ j, j ≠ id → lookup (eraseKey store id) j = lookup store j) ∧
    (lookup store id = none →
      handleRestart env fuel store (some id) = (store, [])) := by
  refine ⟨?_, ?_, ?_⟩
  · intro e he
    cases hl : lookup store id with
    | none => simp [handleRestart, hl] at he
    | some d =>
        simp only [handleRestart, hl, List.mem_cons, List.mem_singleton] at he
        rcases he with h | h | h
        · rw [h]; rfl
        · rw [h]; rfl
        · cases h
  · intro d hd
    exact ⟨by simp [handleRestart, hd],
      fun j hj => lookup_eraseKey_ne store id j hj⟩
  · intro h
    simp [handleRestart, h]

/-- Witness for C10: a store holding exactly the current environment id. -/
theorem c10_restart_inside_env_witness :
    lookup [("x", sampleRec)] "x" = some sampleRec ∧
    handleRestart envStopped 0 [("x", sampleRec)] (some "x")
        = (eraseKey [("x", sampleRec)] "x",
           [Event.infoReconnected (getDevEnvName sampleRec.aliasName "x"),
            Event.storeWrite (eraseKey [("x", sampleRec)] "x")]) :=
  ⟨rfl,
   ((c10_restart_inside_env envStopped 0 [("x", sampleRec)] "x").2.1
     sampleRec rfl).1⟩

/-- C1: a working-set record whose status query answers RUNNING at the first
tick triggers the reconnect-and-open sequence exactly once over the whole
run, with that record's saved previous workspace path; the record is removed
from the working set but its entry is still in the persisted store (claimed,
flag set) at the end of the run. -/
theorem c1_running_opened_once (env : PollEnv) (n : Nat) (working : Store)
    (id : String) (d : DevEnvMemento)
    (hnd : (keys working).Nodup) (hmem : (id, d) ∈ working)
    (hq : env.query 0 id = Except.ok (some "RUNNING"))
    (hnc : ∀ t, env.cancelled t = false) :
    (pollDevEnvs env (n + 1) working).trace.countP (isOpenFor id) = 1 ∧
    Event.openSeq id d.previousVscodeWorkspace ∈
      (pollDevEnvs env (n + 1) working).trace ∧
    id ∉ keys (pollDevEnvs env (n + 1) working).working ∧
    lookup (pollDevEnvs env (n + 1) working).store id
        = some (setFlag true d) := by
  have hrun : runningQuery env 0 id = true := by simp [runningQuery, hq]
  have hrm : removesFromWorking env 0 id = true := by
    simp [removesFromWorking, hq]
  have herr : errorQuery env 0 id = false := by simp [errorQuery, hq]
  have hclmem : (id, setFlag true d) ∈ setWatchedDevEnvStatus working true :=
    mem_setWatchedDevEnvStatus hmem true
  have hclnd : (keys (setWatchedDevEnvStatus working true)).Nodup := by
    rw [keys_setWatchedDevEnvStatus]; exact hnd
  have hclne : (setWatchedDevEnvStatus working true).isEmpty = false := by
    cases hc : setWatchedDevEnvStatus working true with
    | nil => rw [hc] at hclmem; cases hclmem
    | cons a t => rfl
  rw [pollDevEnvs_eq,
    pollLoop_step env ((setWatchedDevEnvStatus working true).length == 1) n 0
      (setWatchedDevEnvStatus working true) (setWatchedDevEnvStatus working true)
      hclne (hnc 0)]
  set sc := ((setWatchedDevEnvStatus working true).length == 1) with hsc
  set W := setWatchedDevEnvStatus working true with hW
  set r := pollEntries env 0 sc W W W with hr
  have htick_open : r.trace.countP (isOpenFor id) = 1 := by
    rw [hr, pollEntries_countOpen]
    exact countP_keyed_one _ hclnd hclmem hrun
  have hnotmem : id ∉ keys r.working := by
    rw [hr]
    exact pollEntries_not_mem_keys env 0 sc W W hclmem hrm
  obtain ⟨hl1, hl2, hl3, hl4⟩ :=
    pollLoop_absent env sc id hnc n 1 r.store r.working hnotmem
  have hlookup_tick : lookup r.store id = lookup W id := by
    rw [hr]
    apply pollEntries_lookup_stable
    intro q _ hqj
    rw [hqj]
    exact herr
  refine ⟨?_, ?_, ?_, ?_⟩
  · simp only [StepResult_trace, List.countP_cons, List.countP_append,
      isOpenFor_storeWrite, htick_open, hl3]
    simp
  · simp only [StepResult_trace, List.mem_cons, List.mem_append]
    refine Or.inr (Or.inl ?_)
    rw [hr]
    have h := pollEntries_open_mem env 0 sc hq W W W hclmem
    exact h
  · simpa only [StepResult_working] using hl2
  · simp only [StepResult_store]
    rw [hl1, hlookup_tick]
    exact lookup_eq_some_of_mem hclnd hclmem

/-- Witness for C1: one RUNNING record next to an untouched PENDING-free
companion store; evaluated on a concrete two-record working set. -/
theorem c1_running_opened_once_witness :
    (keys [("env1", sampleRec), ("env2", sampleRec2)]).Nodup ∧
    (("env1", sampleRec) ∈
      ([("env1", sampleRec), ("env2", sampleRec2)] : Store)) ∧
    envRunning.query 0 "env1" = Except.ok (some "RUNNING") ∧
    ((pollDevEnvs envRunning 1
        [("env1", sampleRec), ("env2", sampleRec2)]).trace.countP
          (isOpenFor "env1") = 1 ∧
      Event.openSeq "env1" sampleRec.previousVscodeWorkspace ∈
        (pollDevEnvs envRunning 1
          [("env1", sampleRec), ("env2", sampleRec2)]).trace ∧
      "env1" ∉ keys (pollDevEnvs envRunning 1
          [("env1", sampleRec), ("env2", sampleRec2)]).working ∧
      lookup (pollDevEnvs envRunning 1
          [("env1", sampleRec), ("env2", sampleRec2)]).store "env1"
        = some (setFlag true sampleRec)) :=
  ⟨by decide, by decide, rfl,
   c1_running_opened_once envRunning 0
     [("env1", sampleRec), ("env2", sampleRec2)] "env1" sampleRec
     (by decide) (by decide) rfl (fun _ => rfl)⟩

/-- C2 counterexample: a record whose query answers FAILED is removed from the
working set, but its entry is still present in the persisted store after the
run (the terminating branch performs no store write), refuting the claim that
it is removed from both. -/
theorem c2_terminating_counterexample :
    envFailed.query 0 "env1" = Except.ok (some "FAILED") ∧
    isTerminating (some "FAILED") = true ∧
    "env1" ∉ keys (pollDevEnvs envFailed 1 [("env1", sampleRec)]).working ∧
    lookup (pollDevEnvs envFailed 1 [("env1", sampleRec)]).store "env1"
        = some (setFlag true sampleRec) ∧
    ¬ lookup (pollDevEnvs envFailed 1 [("env1", sampleRec)]).store "env1"
        = none :=
  ⟨rfl, rfl, by decide, by decide, by decide⟩

/-- C2 amended: a working-set record whose status query answers a terminating
status (FAILED, DELETING or DELETED) has its termination reported and is
removed from the working set, the open sequence is never invoked for it, but
its persisted-store entry is left in place (still claimed with
`attemptingReconnect = true`). -/
theorem c2_terminating_removes_working_only (env : PollEnv) (n : Nat)
    (working : Store) (id : String) (d : DevEnvMemento) (st : Option String)
    (hnd : (keys working).Nodup) (hmem : (id, d) ∈ working)
    (hq : env.query 0 id = Except.ok st) (hterm : isTerminating st = true)
    (hnc : ∀ t, env.cancelled t = false) :
    Event.reportTerminating (getDevEnvName d.aliasName id) ∈
      (pollDevEnvs env (n + 1) working).trace ∧
    id ∉ keys (pollDevEnvs env (n + 1) working).working ∧
    lookup (pollDevEnvs env (n + 1) working).store id
        = some (setFlag true d) ∧
    (pollDevEnvs env (n + 1) working).trace.countP (isOpenFor id) = 0 := by
  have hst : (st == some "RUNNING") = false := by
    simp only [beq_eq_false_iff_ne, ne_eq]
    intro he
    rw [he] at hterm
    simp [isTerminating] at hterm
  have hrun : runningQuery env 0 id = false := by
    simp [runningQuery, hq, hst]
  have hrm : removesFromWorking env 0 id = true := by
    simp [removesFromWorking, hq, hterm]
  have herr : errorQuery env 0 id = false := by simp [errorQuery, hq]
  have hclmem : (id, setFlag true d) ∈ setWatchedDevEnvStatus working true :=
    mem_setWatchedDevEnvStatus hmem true
  have hclnd : (keys (setWatchedDevEnvStatus working true)).Nodup := by
    rw [keys_setWatchedDevEnvStatus]; exact hnd
  have hclne : (setWatchedDevEnvStatus working true).isEmpty = false := by
    cases hc : setWatchedDevEnvStatus working true with
    | nil => rw [hc] at hclmem; cases hclmem
    | cons a t => rfl
  rw [pollDevEnvs_eq,
    pollLoop_step env ((setWatchedDevEnvStatus working true).length == 1) n 0
      (setWatchedDevEnvStatus working true) (setWatchedDevEnvStatus working true)
      hclne (hnc 0)]
  set sc := ((setWatchedDevEnvStatus working true).length == 1) with hsc
  set W := setWatchedDevEnvStatus working true with hW
  set r := pollEntries env 0 sc W W W with hr
  have htick_open : r.trace.countP (isOpenFor id) = 0 := by
    rw [hr, pollEntries_countOpen]
    exact countP_keyed_zero_g _ hrun
  have hnotmem : id ∉ keys r.working := by
    rw [hr]
    exact pollEntries_not_mem_keys env 0 sc W W hclmem hrm
  obtain ⟨hl1, hl2, hl3, hl4⟩ :=
    pollLoop_absent env sc id hnc n 1 r.store r.working hnotmem
  have hlookup_tick : lookup r.store id = lookup W id := by
    rw [hr]
    apply pollEntries_lookup_stable
    intro q _ hqj
    rw [hqj]
    exact herr
  refine ⟨?_, ?_, ?_, ?_⟩
  · simp only [StepResult_trace, List.mem_cons, List.mem_append]
    refine Or.inr (Or.inl ?_)
    rw [hr]
    have h := pollEntries_term_mem env 0 sc hq hterm W W W hclmem
    exact h
  · simpa only [StepResult_working] using hl2
  · simp only [StepResult_store]
    rw [hl1, hlookup_tick]
    exact lookup_eq_some_of_mem hclnd hclmem
  · simp only [StepResult_trace, List.countP_cons, List.countP_append,
      isOpenFor_storeWrite, htick_open, hl3]
    simp

/-- Witness for the amended C2: a FAILED record in a two-record working set. -/
theorem c2_terminating_removes_working_only_witness :
    (keys [("env1", sampleRec), ("env2", sampleRec2)]).Nodup ∧
    (("env1", sampleRec) ∈
      ([("env1", sampleRec), ("env2", sampleRec2)] : Store)) ∧
    envFailed.query 0 "env1" = Except.ok (some "FAILED") ∧
    isTerminating (some "FAILED") = true ∧
    (Event.reportTerminating (getDevEnvName sampleRec.aliasName "env1") ∈
        (pollDevEnvs envFailed 1
          [("env1", sampleRec), ("env2", sampleRec2)]).trace ∧
      "env1" ∉ keys (pollDevEnvs envFailed 1
          [("env1", sampleRec), ("env2", sampleRec2)]).working ∧
      lookup (pollDevEnvs envFailed 1
          [("env1", sampleRec), ("env2", sampleRec2)]).store "env1"
        = some (setFlag true sampleRec) ∧
      (pollDevEnvs envFailed 1
          [("env1", sampleRec), ("env2", sampleRec2)]).trace.countP
        (isOpenFor "env1") = 0) :=
  ⟨by decide, by decide, rfl, rfl,
   c2_terminating_removes_working_only envFailed 0
     [("env1", sampleRec), ("env2", sampleRec2)] "env1" sampleRec
     (some "FAILED") (by decide) (by decide) rfl rfl (fun _ => rfl)⟩

/-- C3: evaluating the poll loop at a record that has expired while being
polled (clock past the window, status STOPPED).  The loop reports the expiry
but, contradicting the claim (and the loop's own documentation), it does not
remove the record from the working set: the record is still in the working
set after the tick and is queried again on the next tick. -/
theorem c3_expired_record_kept_in_working_set :
    isExpired (envStoppedLate.now 0) sampleRec.previousConnectionTimestamp
        = true ∧
    isTerminating (some "STOPPED") = false ∧
    Event.reportExpired "env1" ∈
      (pollDevEnvs envStoppedLate 1 [("env1", sampleRec)]).trace ∧
    ("env1", setFlag true sampleRec) ∈
      (pollDevEnvs envStoppedLate 1 [("env1", sampleRec)]).working ∧
    (pollDevEnvs envStoppedLate 2 [("env1", sampleRec)]).trace.countP
        (isQueryOf "env1") = 2 := by
  decide

/-- C7: a working-set record whose status query throws is dropped from both
the persisted store and the working set and a user-visible warning naming it
is emitted, while any other record (here one whose own query keeps answering
a non-final status) is still polled on the following tick. -/
theorem c7_query_error_drops_record (env : PollEnv) (n : Nat)
    (working : Store) (id : String) (d : DevEnvMemento)
    (j : String) (e : DevEnvMemento) (st : Option String)
    (hnd : (keys working).Nodup) (hmem : (id, d) ∈ working)
    (herrq : env.query 0 id = Except.error ())
    (hjmem : (j, e) ∈ working)
    (hjq : env.query 0 j = Except.ok st)
    (hjrun : (st == some "RUNNING") = false)
    (hjterm : isTerminating st = false)
    (hnc : ∀ t, env.cancelled t = false) :
    Event.warnFail (getDevEnvName d.aliasName id) ∈
      (pollDevEnvs env (n + 2) working).trace ∧
    id ∉ keys (pollDevEnvs env (n + 2) working).working ∧
    lookup (pollDevEnvs env (n + 2) working).store id = none ∧
    2 ≤ (pollDevEnvs env (n + 2) working).trace.countP (isQueryOf j) := by
  have herr : errorQuery env 0 id = true := by simp [errorQuery, herrq]
  have hrm : removesFromWorking env 0 id = true := by
    simp [removesFromWorking, herrq]
  have hjrm : removesFromWorking env 0 j = false := by
    simp [removesFromWorking, hjq, hjrun, hjterm]
  have hclmem : (id, setFlag true d) ∈ setWatchedDevEnvStatus working true :=
    mem_setWatchedDevEnvStatus hmem true
  have hjclmem : (j, setFlag true e) ∈ setWatchedDevEnvStatus working true :=
    mem_setWatchedDevEnvStatus hjmem true
  have hclnd : (keys (setWatchedDevEnvStatus working true)).Nodup := by
    rw [keys_setWatchedDevEnvStatus]; exact hnd
  have hclne : (setWatchedDevEnvStatus working true).isEmpty = false := by
    cases hc : setWatchedDevEnvStatus working true with
    | nil => rw [hc] at hclmem; cases hclmem
    | cons a t => rfl
  rw [pollDevEnvs_eq,
    pollLoop_step env ((setWatchedDevEnvStatus working true).length == 1)
      (n + 1) 0 (setWatchedDevEnvStatus working true)
      (setWatchedDevEnvStatus working true) hclne (hnc 0)]
  set sc := ((setWatchedDevEnvStatus working true).length == 1) with hsc
  set W := setWatchedDevEnvStatus working true with hW
  set r := pollEntries env 0 sc W W W with hr
  have hnotmem : id ∉ keys r.working := by
    rw [hr]
    exact pollEntries_not_mem_keys env 0 sc W W hclmem hrm
  have hlookup_none : lookup r.store id = none := by
    rw [hr]
    exact pollEntries_lookup_erased env 0 sc herr W W W (setFlag true d) hclmem
  obtain ⟨hl1, hl2, hl3, hl4⟩ :=
    pollLoop_absent env sc id hnc (n + 1) 1 r.store r.working hnotmem
  have htick1 : r.trace.countP (isQueryOf j) = 1 := by
    rw [hr, pollEntries_countQuery]
    exact countP_fst_one hclnd hjclmem
  have hjkeep : (j, setFlag true e) ∈ r.working := by
    rw [hr]
    exact pollEntries_keeps env 0 sc W W W hjclmem hjrm
  have hwne : r.working.isEmpty = false := by
    cases hc : r.working with
    | nil => rw [hc] at hjkeep; cases hjkeep
    | cons a t => rfl
  have hnd1 : (keys r.working).Nodup := by
    rw [hr]
    exact nodup_keys_pollEntries env 0 sc W W W hclnd
  refine ⟨?_, ?_, ?_, ?_⟩
  · simp only [StepResult_trace, List.mem_cons, List.mem_append]
    refine Or.inr (Or.inl ?_)
    rw [hr]
    have h := pollEntries_warn_mem env 0 sc herr W W W hclmem
    exact h
  · simpa only [StepResult_working] using hl2
  · simp only [StepResult_store]
    rw [hl1]
    exact hlookup_none
  · simp only [StepResult_trace, List.countP_cons, List.countP_append,
      isQueryOf_storeWrite, htick1]
    rw [pollLoop_step env sc n 1 r.store r.working hwne (hnc 1)]
    simp only [StepResult_trace, List.countP_append]
    have htick2 : (pollEntries env 1 sc r.working r.store
        r.working).trace.countP (isQueryOf j) = 1 := by
      rw [pollEntries_countQuery]
      exact countP_fst_one hnd1 hjkeep
    rw [htick2]
    simp only [Bool.false_eq_true, if_false]
    omega

/-- Witness for C7: a throwing record `bad` next to a PENDING record `good`;
two ticks of polling. -/
theorem c7_query_error_drops_record_witness :
    (keys [("bad", sampleRec), ("good", sampleRec2)]).Nodup ∧
    (("bad", sampleRec) ∈
      ([("bad", sampleRec), ("good", sampleRec2)] : Store)) ∧
    envMixed.query 0 "bad" = Except.error () ∧
    (("good", sampleRec2) ∈
      ([("bad", sampleRec), ("good", sampleRec2)] : Store)) ∧
    envMixed.query 0 "good" = Except.ok (some "PENDING") ∧
    (Event.warnFail (getDevEnvName sampleRec.aliasName "bad") ∈
        (pollDevEnvs envMixed 2
          [("bad", sampleRec), ("good", sampleRec2)]).trace ∧
      "bad" ∉ keys (pollDevEnvs envMixed 2
          [("bad", sampleRec), ("good", sampleRec2)]).working ∧
      lookup (pollDevEnvs envMixed 2
          [("bad", sampleRec), ("good", sampleRec2)]).store "bad" = none ∧
      2 ≤ (pollDevEnvs envMixed 2
          [("bad", sampleRec), ("good", sampleRec2)]).trace.countP
        (isQueryOf "good")) :=
  ⟨by decide, by decide, rfl, by decide, rfl,
   c7_query_error_drops_record envMixed 0
     [("bad", sampleRec), ("good", sampleRec2)] "bad" sampleRec
     "good" sampleRec2 (some "PENDING") (by decide) (by decide) rfl
     (by decide) rfl rfl rfl (fun _ => rfl)⟩

/-- C8: with exactly one record in the working set, a RUNNING answer at the
first tick produces precisely the claim write, the query, the running
report, the open sequence and then the process-close trigger; with two or
more records the close trigger never appears anywhere in the run. -/
theorem c8_close_trigger_single_record_only :
    (∀ (env : PollEnv) (n : Nat) (id : String) (d : DevEnvMemento),
      env.query 0 id = Except.ok (some "RUNNING") →
      (∀ t, env.cancelled t = false) →
      (pollDevEnvs env (n + 1) [(id, d)]).trace
        = [Event.storeWrite [(id, setFlag true d)], Event.query id,
           Event.reportRunning (getDevEnvName d.aliasName id),
           Event.openSeq id d.previousVscodeWorkspace,
           Event.closeTrigger]) ∧
    (∀ (env : PollEnv) (fuel : Nat) (working : Store),
      2 ≤ working.length →
      Event.closeTrigger ∉ (pollDevEnvs env fuel working).trace) := by
  constructor
  · intro env n id d hq hnc
    rw [pollDevEnvs_eq,
      pollLoop_step env ((setWatchedDevEnvStatus [(id, d)] true).length == 1)
        n 0 (setWatchedDevEnvStatus [(id, d)] true)
        (setWatchedDevEnvStatus [(id, d)] true) rfl (hnc 0)]
    have hentries :
        pollEntries env 0
            ((setWatchedDevEnvStatus [(id, d)] true).length == 1)
            (setWatchedDevEnvStatus [(id, d)] true)
            (setWatchedDevEnvStatus [(id, d)] true)
            (setWatchedDevEnvStatus [(id, d)] true)
          = ⟨[(id, setFlag true d)], [],
             [Event.query id,
              Event.reportRunning (getDevEnvName d.aliasName id),
              Event.openSeq id d.previousVscodeWorkspace,
              Event.closeTrigger]⟩ := by
      simp [pollEntries, processRecord, hq, openReconnectedDevEnv,
        setWatchedDevEnvStatus, eraseKey, getDevEnvName, setFlag]
    rw [hentries]
    simp [pollLoop_nil, setWatchedDevEnvStatus]
  · intro env fuel working hlen
    have hsc : ((setWatchedDevEnvStatus working true).length == 1) = false := by
      have hl : (setWatchedDevEnvStatus working true).length
          = working.length := by
        simp [setWatchedDevEnvStatus]
      simp only [beq_eq_false_iff_ne, ne_eq, hl]
      omega
    rw [pollDevEnvs_eq, hsc]
    simp only [StepResult_trace, List.mem_cons, not_or]
    exact ⟨by simp, pollLoop_noclose env fuel 0 _ _⟩

/-- Witness for C8: a concrete single-record success run and a concrete
two-record run. -/
theorem c8_close_trigger_single_record_only_witness :
    ((pollDevEnvs envRunning 1 [("solo", sampleRec2)]).trace
        = [Event.storeWrite [("solo", setFlag true sampleRec2)],
           Event.query "solo",
           Event.reportRunning (getDevEnvName sampleRec2.aliasName "solo"),
           Event.openSeq "solo" sampleRec2.previousVscodeWorkspace,
           Event.closeTrigger]) ∧
    (2 ≤ ([("env1", sampleRec), ("env2", sampleRec2)] : Store).length ∧
      Event.closeTrigger ∉
        (pollDevEnvs envRunning 3
          [("env1", sampleRec), ("env2", sampleRec2)]).trace) :=
  ⟨c8_close_trigger_single_record_only.1 envRunning 0 "solo" sampleRec2 rfl
     (fun _ => rfl),
   by decide,
   c8_close_trigger_single_record_only.2 envRunning 3
     [("env1", sampleRec), ("env2", sampleRec2)] (by decide)⟩

end Reconnect
